import Mathlib

/-!
Shallow embedding of the `rpcserver` package (`server.go`) together with the
example arithmetic service (`jsonrpc-sample/main.go`), and proofs about the
dispatch behaviour.

The Go code is modelled as pure Lean functions.  HTTP requests, codecs and
codec requests are explicit data; the dispatcher `serveHTTP` returns the
response that was written, a trace of the calls it made into the codec
request, and the (unchanged) server state it finished with.  Machine integers
of the example service are modelled as mathematical integers wrapped to the
64-bit signed range where the Go program would overflow.
-/

set_option autoImplicit false

namespace Rpcserver

universe u

variable {Val : Type u}

/-- An inbound HTTP request as seen by `ServeHTTP`: the HTTP method, the value
of the `Content-Type` header (the empty string when the header is absent), and
the URL path. -/
structure Request where
  httpMethod : String
  contentType : String
  urlPath : String
  deriving DecidableEq

/-- The per-request object produced by a codec (`CodecRequest` in the Go
sources): the envelope parse error, the embedded method name (`Method()`
returns a name or an error), and the argument decoder, which receives the
freshly allocated zero value of the argument type and either returns the
decoded value or fails. -/
structure CodecReq (Val : Type u) where
  error : Option String
  methodName : Except String String
  read : Val → Except String Val

/-- A codec (`Codec` in the Go sources): it produces a `CodecReq` from the
inbound request. -/
structure Codec (Val : Type u) where
  newRequest : Request → CodecReq Val

/-- A registered method: the zero values of its argument and reply types
(what `reflect.New` produces in `ServeHTTP`) and the invocation function,
which receives the request, the decoded arguments and the zero reply value
and returns the final reply value together with the returned error. -/
structure MethodSpec (Val : Type u) where
  argsZero : Val
  replyZero : Val
  invoke : Request → Val → Val → Val × Option String

/-- The method registry bound to one receiver (`RpcService` in the Go
sources): a mapping from method name to `MethodSpec`. -/
structure RpcService (Val : Type u) where
  methods : List (String × MethodSpec Val)

/-- Modelled from the spec: the method registry lookup `RpcService.Get`
(its code is not under `src/`; `server.go` only calls it).  Per the spec it is
an exact-match lookup that fails with a not-found error when the name is
absent. -/
def RpcService.get (s : RpcService Val) (name : String) :
    Except String (MethodSpec Val) :=
  match s.methods.lookup name with
  | some m => Except.ok m
  | none => Except.error ("rpc: cannot find method " ++ name)

/-- A method of the receiver as reflection sees it at registration time: the
method name together with the structural facts that the extraction rules
documented on `NewServer` in `server.go` examine, and the `MethodSpec`
recorded for it on acceptance. -/
structure CandidateMethod (Val : Type u) where
  name : String
  nameExported : Bool
  hasThreePointerArgs : Bool
  payloadTypesVisible : Bool
  returnsError : Bool
  impl : MethodSpec Val

/-- The eligibility rules documented on `NewServer` in `server.go`: the method
name is exported, the method has the three pointer arguments
`*http.Request, *args, *reply`, the payload types are exported or local, and
the return type is `error`. -/
def suitableMethod (m : CandidateMethod Val) : Bool :=
  m.nameExported && m.hasThreePointerArgs && m.payloadTypesVisible && m.returnsError

/-- Modelled from the spec: `NewRpcService` (its code is not under `src/`;
`server.go` calls it from `NewServer`).  Per the spec it skips every
candidate method that fails the structural rules, records a `MethodSpec` for
each one that passes, and fails the whole build when zero methods qualify. -/
def NewRpcService (receiver : List (CandidateMethod Val)) :
    Except String (RpcService Val) :=
  if (receiver.filter suitableMethod).isEmpty then
    Except.error "rpc: no suitable methods on receiver"
  else
    Except.ok ⟨(receiver.filter suitableMethod).map (fun m => (m.name, m.impl))⟩

/-- Lower-casing of one character, as Go's `strings.ToLower` acts on the
ASCII letters that make up content types. -/
def charLower (c : Char) : Char :=
  if 'A' ≤ c ∧ c ≤ 'Z' then Char.ofNat (c.toNat + 32) else c

/-- Embedding of `strings.ToLower` restricted to its action on ASCII
strings (content-type keys are ASCII media types). -/
def lowerStr (s : String) : String :=
  String.mk (s.toList.map charLower)

/-- Splitting a character list at every occurrence of a separator, the
behaviour of Go's `strings.Split` on the underlying runes. -/
def splitOnChar (sep : Char) : List Char → List (List Char)
  | [] => [[]]
  | c :: rest =>
    match splitOnChar sep rest with
    | [] => [[]]
    | seg :: segs => if c = sep then [] :: seg :: segs else (c :: seg) :: segs

/-- Modelled from the spec: `LastPart` (its code is not under `src/`;
`server.go` calls `LastPart(r.URL.Path)`).  Per the spec the final path
segment is treated as the unqualified method name. -/
def LastPart (path : String) : String :=
  String.mk ((splitOnChar '/' path.toList).getLastD [])

/-- Insertion into a Go map modelled on an association list: an existing key
is overwritten in place, a new key is appended. -/
def mapInsert {α : Type u} (m : List (String × α)) (k : String) (v : α) :
    List (String × α) :=
  if m.any (fun p => p.1 = k) then
    m.map (fun p => if p.1 = k then (k, v) else p)
  else
    m ++ [(k, v)]

/-- The server (`Server` in `server.go`): the codec map keyed by lower-cased
content type, and the method registry. -/
structure Server (Val : Type u) where
  codecs : List (String × Codec Val)
  service : RpcService Val

/-- Embedding of `Server.RegisterCodec`: stores the codec under the
lower-cased content type. -/
def Server.registerCodec (s : Server Val) (codec : Codec Val)
    (contentType : String) : Server Val :=
  { s with codecs := mapInsert s.codecs (lowerStr contentType) codec }

/-- Embedding of `NewServer` from `server.go`: builds the method registry via
`NewRpcService` and, on failure, returns the error with no server value, so a
registry with zero callable methods is never exposed; on success the server
starts with an empty codec map. -/
def NewServer (receiver : List (CandidateMethod Val)) :
    Except String (Server Val) :=
  match NewRpcService receiver with
  | Except.error e => Except.error e
  | Except.ok service => Except.ok { codecs := [], service := service }

/-- Embedding of `Server.HasMethod`: true when the registry lookup
succeeds. -/
def Server.hasMethod (s : Server Val) (name : String) : Bool :=
  match s.service.get name with
  | Except.ok _ => true
  | Except.error _ => false

/-- Embedding of the content-type truncation in `ServeHTTP`: Go computes
`strings.Index(contentType, ";")` and, when a semicolon is present, keeps the
part strictly before it. -/
def stripAfterSemicolon (ct : String) : String :=
  match ct.toList.findIdx? (fun c => c = ';') with
  | some i => String.mk (ct.toList.take i)
  | none => ct

/-- Embedding of the codec-selection branch of `ServeHTTP`, applied to the
already-truncated content type: an empty content type with exactly one
registered codec yields that codec (the `for` loop over a one-entry map),
otherwise the lower-cased content type is looked up in the codec map and an
absent key yields no codec. -/
def selectCodec (codecs : List (String × Codec Val)) (contentType : String) :
    Option (Codec Val) :=
  if contentType = "" ∧ codecs.length = 1 then
    codecs.head?.map Prod.snd
  else
    codecs.lookup (lowerStr contentType)

/-- Calls made by `ServeHTTP` into the codec request, in order: creating the
codec request (`NewRequest`, which parses the envelope), decoding the
arguments (`ReadRequest`), and invoking the named service method. -/
inductive Ev where
  | newRequest
  | readRequest
  | invoke (name : String)
  deriving DecidableEq

/-- What `ServeHTTP` wrote back: a plain-text error via the package-level
`WriteError`, an error in the codec's wire format via
`CodecRequest.WriteError`, or a successful reply via
`CodecRequest.WriteResponse`. -/
inductive Written (Val : Type u) where
  | plain (status : Nat) (body : String)
  | codecErr (status : Nat) (err : String)
  | codecResp (reply : Val)
  deriving DecidableEq

/-- The HTTP status carried by a write, when the dispatcher chose one (a
successful `WriteResponse` leaves the status to the codec). -/
def writtenStatus : Written Val → Option Nat
  | Written.plain s _ => some s
  | Written.codecErr s _ => some s
  | Written.codecResp _ => none

/-- Whether an `Except` is a success, without inspecting the payload. -/
def exceptIsOk {ε α : Type u} : Except ε α → Bool
  | Except.ok _ => true
  | Except.error _ => false

/-- The result of one `ServeHTTP` call: the codec-request trace, the response
written, and the server state when the handler returns (the Go handler never
writes to `s.codecs` or `s.service`, and the embedding passes the state
through every exit path exactly as the source does). -/
structure HandlerResult (Val : Type u) where
  trace : List Ev
  written : Written Val
  server : Server Val

/-- Embedding of `Server.ServeHTTP` from `server.go`, branch for branch:
reject non-POST with a plain 405; truncate the content type at the first
semicolon and select a codec, rejecting with a plain 415 when none matches;
look up the final URL path segment in the registry, rejecting with a plain
404 on failure; create the codec request and reject envelope, method-name,
registry and decode failures with a codec-encoded 400; finally invoke the
method named by the envelope on freshly allocated argument and reply values
and write either the codec-encoded error (400) or the reply. -/
def serveHTTP (s : Server Val) (r : Request) : HandlerResult Val :=
  if r.httpMethod ≠ "POST" then
    ⟨[], Written.plain 405 ("rpc: POST method required, received " ++ r.httpMethod), s⟩
  else
    let contentType := stripAfterSemicolon r.contentType
    match selectCodec s.codecs contentType with
    | none =>
      ⟨[], Written.plain 415 ("rpc: unrecognized Content-Type: " ++ contentType), s⟩
    | some codec =>
      let pathMethod := LastPart r.urlPath
      match s.service.get pathMethod with
      | Except.error e => ⟨[], Written.plain 404 e, s⟩
      | Except.ok _ =>
        let codecReq := codec.newRequest r
        match codecReq.error with
        | some e => ⟨[Ev.newRequest], Written.codecErr 400 e, s⟩
        | none =>
          match codecReq.methodName with
          | Except.error e => ⟨[Ev.newRequest], Written.codecErr 400 e, s⟩
          | Except.ok methodName =>
            match s.service.get methodName with
            | Except.error e => ⟨[Ev.newRequest], Written.codecErr 400 e, s⟩
            | Except.ok methodSpec =>
              match codecReq.read methodSpec.argsZero with
              | Except.error e =>
                ⟨[Ev.newRequest, Ev.readRequest], Written.codecErr 400 e, s⟩
              | Except.ok args =>
                let res := methodSpec.invoke r args methodSpec.replyZero
                match res.2 with
                | some e =>
                  ⟨[Ev.newRequest, Ev.readRequest, Ev.invoke methodName],
                    Written.codecErr 400 e, s⟩
                | none =>
                  ⟨[Ev.newRequest, Ev.readRequest, Ev.invoke methodName],
                    Written.codecResp res.1, s⟩

/-- The parameter-stripping step as the spec words it: keep the part of the
header before the first semicolon (stated via `takeWhile`, to be compared
with the index-based truncation the code performs). -/
def stripSpec (ct : String) : String :=
  String.mk (ct.toList.takeWhile (fun c => c ≠ ';'))

/-- The codec-selection algorithm as the spec words it: strip any parameter
suffix after the first semicolon; if the resulting string is empty and
exactly one codec is registered, return that codec; otherwise look up the
lower-cased string, failing if absent. -/
def specSelect (codecs : List (String × Codec Val)) (header : String) :
    Option (Codec Val) :=
  let ct := stripSpec header
  if ct = "" ∧ codecs.length = 1 then
    codecs.head?.map Prod.snd
  else
    codecs.lookup (lowerStr ct)


/- ------------------------------------------------------------------ -/
/- The plain-text error writer and the response-writer contract.       -/
/- ------------------------------------------------------------------ -/

/-- The state of a `net/http` response writer: the mutable header map, the
status sent by the first `WriteHeader` call (none before it), the snapshot of
the header map flushed to the wire at that moment, and the accumulated
body. -/
structure ResponseWriter where
  headers : List (String × String)
  sentStatus : Option Nat
  sentHeaders : List (String × String)
  body : String
  deriving DecidableEq

/-- A response writer before anything has been written. -/
def ResponseWriter.fresh : ResponseWriter :=
  { headers := [], sentStatus := none, sentHeaders := [], body := "" }

/-- The `net/http` contract for `WriteHeader`: the first call flushes the
current header map together with the status; later calls are ignored. -/
def ResponseWriter.writeHeader (w : ResponseWriter) (status : Nat) :
    ResponseWriter :=
  match w.sentStatus with
  | some _ => w
  | none => { w with sentStatus := some status, sentHeaders := w.headers }

/-- The `net/http` contract for `Header().Set`: mutates the header map; this
reaches the wire only if a `WriteHeader` call happens afterwards. -/
def ResponseWriter.setHeader (w : ResponseWriter) (k v : String) :
    ResponseWriter :=
  { w with headers := mapInsert w.headers k v }

/-- The `net/http` contract for `Write` (used via `fmt.Fprint`): an implicit
`WriteHeader(200)` if none was sent yet, then the bytes are appended to the
body. -/
def ResponseWriter.write (w : ResponseWriter) (msg : String) : ResponseWriter :=
  let w := w.writeHeader 200
  { w with body := w.body ++ msg }

/-- Embedding of the package-level `WriteError` in `server.go`, operation for
operation and in source order: `w.WriteHeader(status)` first, then
`w.Header().Set("Content-Type", "text/plain; charset=utf-8")`, then
`fmt.Fprint(w, msg)`. -/
def WriteError (w : ResponseWriter) (status : Nat) (msg : String) :
    ResponseWriter :=
  let w := w.writeHeader status
  let w := w.setHeader "Content-Type" "text/plain; charset=utf-8"
  w.write msg

/- ------------------------------------------------------------------ -/
/- The example arithmetic service (jsonrpc-sample/main.go).            -/
/- ------------------------------------------------------------------ -/

/-- Wrapping of an unbounded integer into the two's-complement 64-bit signed
range, the overflow behaviour of Go's `int` on the 64-bit targets this
program runs on. -/
def wrap64 (n : Int) : Int :=
  (n + 2 ^ 63) % 2 ^ 64 - 2 ^ 63

/-- Whether an integer is representable as a 64-bit signed `int`. -/
def inInt64 (n : Int) : Prop :=
  -(2 ^ 63) ≤ n ∧ n < 2 ^ 63

instance (n : Int) : Decidable (inInt64 n) := by
  unfold inInt64; infer_instance

/-- The argument payload of the example service. -/
structure Args where
  A : Int
  B : Int
  deriving DecidableEq

/-- The reply payload of the example service's `Divide`. -/
structure Quotient where
  Quo : Int
  Rem : Int
  deriving DecidableEq

namespace Arith

/-- Embedding of `Arith.Multiply`: sets the reply to `args.A * args.B`
(wrapping as Go's 64-bit `int` multiplication does) and returns no error. -/
def Multiply (_r : Request) (args : Args) (_reply : Int) : Int × Option String :=
  (wrap64 (args.A * args.B), none)

/-- Embedding of `Arith.Divide`: on a zero divisor it returns the error
"divide by zero" leaving the quotient untouched; otherwise it sets the
truncated quotient and remainder of Go's `int` division (which wrap at the
lone overflowing input). -/
def Divide (_r : Request) (args : Args) (quo : Quotient) :
    Quotient × Option String :=
  if args.B = 0 then
    (quo, some "divide by zero")
  else
    ({ Quo := wrap64 (Int.tdiv args.A args.B),
       Rem := wrap64 (Int.tmod args.A args.B) }, none)

end Arith

/- ------------------------------------------------------------------ -/
/- Concrete fixtures used to evaluate the model on closed inputs.      -/
/- ------------------------------------------------------------------ -/

/-- A method that adds 42 to the decoded argument, never failing. -/
def exMethod : MethodSpec Int :=
  { argsZero := 0, replyZero := 0, invoke := fun _ a z => (a + z + 42, none) }

/-- A method that always returns the application error "boom". -/
def exFailMethod : MethodSpec Int :=
  { argsZero := 0, replyZero := 0, invoke := fun _ _ z => (z, some "boom") }

/-- A registry holding `Multiply` and `Fail`. -/
def exService : RpcService Int :=
  { methods := [("Multiply", exMethod), ("Fail", exFailMethod)] }

/-- A well-behaved codec whose envelope names `Multiply` and whose decoder
succeeds with the zero value it was handed. -/
def exCodec : Codec Int :=
  { newRequest := fun _ =>
      { error := none, methodName := Except.ok "Multiply",
        read := fun z => Except.ok z } }

/-- A codec whose envelope parse fails. -/
def exBadEnvCodec : Codec Int :=
  { newRequest := fun _ =>
      { error := some "rpc: parse error", methodName := Except.ok "Multiply",
        read := fun z => Except.ok z } }

/-- A codec whose envelope names the registered method `Fail`. -/
def exFailCodec : Codec Int :=
  { newRequest := fun _ =>
      { error := none, methodName := Except.ok "Fail",
        read := fun z => Except.ok z } }

/-- A server before any codec registration. -/
def exBase : Server Int :=
  { codecs := [], service := exService }

/-- The usual setup of the sample: one codec under `application/json`. -/
def exServer : Server Int :=
  exBase.registerCodec exCodec "application/json"

/-- A server whose sole codec rejects every envelope. -/
def exBadEnvServer : Server Int :=
  exBase.registerCodec exBadEnvCodec "application/json"

/-- A server whose sole codec routes every request to `Fail`. -/
def exFailServer : Server Int :=
  exBase.registerCodec exFailCodec "application/json"

/-- A server with one codec registered under the empty content type and a
second one under `application/json`. -/
def exEmptyKeyServer : Server Int :=
  (exBase.registerCodec exCodec "").registerCodec exCodec "application/json"

/-- A POST request with the given content type and path. -/
def postReq (ct path : String) : Request :=
  { httpMethod := "POST", contentType := ct, urlPath := path }

/-- A candidate method failing the eligibility rules (unexported name). -/
def exBadCandidate : CandidateMethod Int :=
  { name := "multiply", nameExported := false, hasThreePointerArgs := true,
    payloadTypesVisible := true, returnsError := true, impl := exMethod }

/-- A candidate method passing all eligibility rules. -/
def exGoodCandidate : CandidateMethod Int :=
  { name := "Multiply", nameExported := true, hasThreePointerArgs := true,
    payloadTypesVisible := true, returnsError := true, impl := exMethod }

/-- When no element satisfies the test, `takeWhile` of the negated test is
the whole list. -/
theorem takeWhile_not_of_findIdx_none {α : Type u} (p : α → Bool) (l : List α)
    (h : l.findIdx? p = none) : l.takeWhile (fun a => !p a) = l := by
  induction l with
  | nil => rfl
  | cons a l ih =>
    rw [List.findIdx?_cons] at h
    by_cases hp : p a
    · simp [hp] at h
    · rw [if_neg hp, List.findIdx?_succ] at h
      have h2 : l.findIdx? p = none := by
        cases hx : l.findIdx? p with
        | none => rfl
        | some j => rw [hx] at h; simp at h
      simp [List.takeWhile_cons, hp, ih h2]

/-- Taking up to the first element satisfying a test equals `takeWhile` of
the negated test. -/
theorem take_of_findIdx_some {α : Type u} (p : α → Bool) (l : List α) (i : Nat)
    (h : l.findIdx? p = some i) : l.takeWhile (fun a => !p a) = l.take i := by
  induction l generalizing i with
  | nil => simp at h
  | cons a l ih =>
    rw [List.findIdx?_cons] at h
    by_cases hp : p a
    · rw [if_pos hp] at h
      cases h
      simp [List.takeWhile_cons, hp]
    · rw [if_neg hp, List.findIdx?_succ] at h
      cases hfi : l.findIdx? p with
      | none => rw [hfi] at h; simp at h
      | some j =>
        rw [hfi] at h
        simp only [Option.map_some'] at h
        cases Option.some.inj h
        simp [List.takeWhile_cons, hp, List.take_succ_cons, ih j hfi]

/-- Truncating at the first semicolon, the way the code computes it, agrees
with the spec's description of the stripping step. -/
theorem stripAfterSemicolon_eq_stripSpec (ct : String) :
    stripAfterSemicolon ct = stripSpec ct := by
  have hpred : (fun c : Char => decide (c ≠ ';')) =
      (fun c : Char => !decide (c = ';')) := by
    funext c
    simp [decide_not]
  unfold stripAfterSemicolon stripSpec
  rw [hpred]
  cases hfi : ct.toList.findIdx? (fun c => decide (c = ';')) with
  | none =>
    rw [takeWhile_not_of_findIdx_none _ _ hfi]
    rfl
  | some i =>
    rw [take_of_findIdx_some _ _ _ hfi]

/-- Wrapping is the identity on values already in the 64-bit signed range. -/
theorem wrap64_eq_of_inInt64 (n : Int) (h : inInt64 n) : wrap64 n = n := by
  obtain ⟨h1, h2⟩ := h
  unfold wrap64
  omega

/-- The magnitude of a truncated remainder is the remainder of the
magnitudes. -/
theorem natAbs_tmod_eq (a b : Int) :
    (Int.tmod a b).natAbs = a.natAbs % b.natAbs := by
  cases a with
  | ofNat m =>
    cases b with
    | ofNat n => rfl
    | negSucc n => rfl
  | negSucc m =>
    cases b with
    | ofNat n =>
      show (-(Int.ofNat ((m + 1) % n))).natAbs = _
      rw [Int.natAbs_neg]
      rfl
    | negSucc n =>
      show (-(Int.ofNat ((m + 1) % (n + 1)))).natAbs = _
      rw [Int.natAbs_neg]
      rfl

/-- A truncated quotient of 64-bit representable operands is itself
representable, except at the lone overflowing input `(-2^63) / -1`. -/
theorem tdiv_inInt64 (a b : Int) (ha : inInt64 a) (hb : inInt64 b)
    (hb0 : b ≠ 0) (hmin : ¬(a = -(2 ^ 63) ∧ b = -1)) :
    inInt64 (Int.tdiv a b) := by
  have hd : (Int.tdiv a b).natAbs = a.natAbs / b.natAbs := Int.natAbs_tdiv a b
  obtain ⟨ha1, ha2⟩ := ha
  obtain ⟨hb1, hb2⟩ := hb
  by_cases h1 : b.natAbs = 1
  · have hb' : b = 1 ∨ b = -1 := by omega
    cases hb' with
    | inl h => subst h; rw [Int.tdiv_one]; exact ⟨ha1, ha2⟩
    | inr h =>
      subst h
      have hamin : a ≠ -(2 ^ 63) := fun hc => hmin ⟨hc, rfl⟩
      have hn : a.natAbs ≤ 2 ^ 63 - 1 := by omega
      have : (Int.tdiv a (-1)).natAbs ≤ 2 ^ 63 - 1 := by
        rw [hd]
        calc a.natAbs / (-1 : Int).natAbs = a.natAbs := Nat.div_one _
        _ ≤ 2 ^ 63 - 1 := hn
      constructor <;> omega
  · have h2 : 2 ≤ b.natAbs := by omega
    have hdle : (Int.tdiv a b).natAbs ≤ 2 ^ 62 := by
      rw [hd]
      calc a.natAbs / b.natAbs ≤ a.natAbs / 2 :=
            Nat.div_le_div_left h2 (by omega)
        _ ≤ 2 ^ 63 / 2 := Nat.div_le_div_right (by omega)
        _ = 2 ^ 62 := by norm_num
    constructor <;> omega

/-- A truncated remainder of 64-bit representable operands is itself
representable. -/
theorem tmod_inInt64 (a b : Int) (ha : inInt64 a) (hb : inInt64 b)
    (hb0 : b ≠ 0) : inInt64 (Int.tmod a b) := by
  have hm : (Int.tmod a b).natAbs = a.natAbs % b.natAbs := natAbs_tmod_eq a b
  obtain ⟨ha1, ha2⟩ := ha
  obtain ⟨hb1, hb2⟩ := hb
  have hbpos : 0 < b.natAbs := by omega
  have hlt : a.natAbs % b.natAbs < b.natAbs := Nat.mod_lt _ hbpos
  have hble : b.natAbs ≤ 2 ^ 63 := by omega
  constructor <;> omega

/-- The handler leaves the server state untouched on every exit path: the
embedding of `ServeHTTP` returns the codec map and the method registry it was
given. -/
theorem serveHTTP_server_eq (s : Server Val) (r : Request) :
    (serveHTTP s r).server = s := by
  unfold serveHTTP
  split
  · rfl
  · dsimp only
    repeat' split
    all_goals rfl

/-- Claim C9: for every HTTP request whose method is not POST, the dispatcher
responds with status 405 and a plain-text body naming the received method,
regardless of content type, path or server state, and performs no codec
selection, method resolution or invocation: the codec-interaction trace is
empty and the write goes through the generic plain-text writer. -/
theorem claim9_non_post_rejected (s : Server Val) (r : Request)
    (h : r.httpMethod ≠ "POST") :
    serveHTTP s r =
      ⟨[], Written.plain 405 ("rpc: POST method required, received " ++ r.httpMethod), s⟩ := by
  unfold serveHTTP
  rw [if_pos h]

/-- Witness for C9 at a concrete GET request. -/
theorem claim9_witness :
    serveHTTP exServer
        { httpMethod := "GET", contentType := "application/json",
          urlPath := "/jsonrpc/v2/Multiply" } =
      ⟨[], Written.plain 405 "rpc: POST method required, received GET", exServer⟩ :=
  claim9_non_post_rejected exServer _ (by decide)

/-- Claim C10: the generic plain-text writer `WriteError` writes the HTTP status
first, then sets the `Content-Type: text/plain; charset=utf-8` header, then
writes the message as the body; since the header block was already flushed by
`WriteHeader`, the headers sent on the wire are exactly the ones from before
the call and the Content-Type mutation never takes effect, while the mutation
is still visible in the in-memory header map. -/
theorem claim10_write_error_order (w : ResponseWriter) (status : Nat)
    (msg : String) (h : w.sentStatus = none) :
    WriteError w status msg =
      { headers := mapInsert w.headers "Content-Type" "text/plain; charset=utf-8",
        sentStatus := some status,
        sentHeaders := w.headers,
        body := w.body ++ msg } := by
  unfold WriteError ResponseWriter.write ResponseWriter.writeHeader
    ResponseWriter.setHeader
  rw [h]

/-- Witness for C10 on a fresh response writer. -/
theorem claim10_witness :
    WriteError ResponseWriter.fresh 405 "rpc: POST method required, received GET" =
      { headers := [("Content-Type", "text/plain; charset=utf-8")],
        sentStatus := some 405,
        sentHeaders := [],
        body := "rpc: POST method required, received GET" } :=
  claim10_write_error_order ResponseWriter.fresh 405 _ rfl

/-- Claim C8: dispatching is deterministic and free of cross-request state: the
handler returns the codec map and registry unchanged, so serving the same
request again from the state the first call left behind produces the
identical result (args and reply enter each run as the per-call zero values
`argsZero` and `replyZero` in the definition of `serveHTTP`). -/
theorem claim8_stateless_idempotent (s : Server Val) (r : Request) :
    (serveHTTP s r).server = s ∧
    serveHTTP (serveHTTP s r).server r = serveHTTP s r := by
  have hs : (serveHTTP s r).server = s := serveHTTP_server_eq s r
  exact ⟨hs, by rw [hs]⟩

/-- Counterexample for C1: with one codec registered under the empty content type
and a second under `application/json`, a POST request with an empty
Content-Type does not get a 415 even though two codecs are registered — the
empty string is looked up, the empty-keyed codec matches, and processing
continues (here to the 404 path lookup), refuting the claim's parenthetical
that an empty Content-Type with two or more registered codecs always yields
status 415. -/
theorem claim1_counterexample :
    exEmptyKeyServer.codecs.length = 2 ∧
    writtenStatus (serveHTTP exEmptyKeyServer
        (postReq "" "/jsonrpc/v2/Nope")).written = some 404 ∧
    writtenStatus (serveHTTP exEmptyKeyServer
        (postReq "" "/jsonrpc/v2/Nope")).written ≠ some 415 := by
  decide

/-- Claim C1 as amended: codec selection implements the reference algorithm — strip
the suffix from the first semicolon on; with an empty result and exactly one
registered codec take that codec, otherwise look up the lower-cased string
among the registered content types (registration lower-cases the key); when
no codec matches (which, for an empty Content-Type with two or more codecs
registered, is the case unless a codec was registered under the empty content
type) the response is a plain-text 415 and nothing further happens. -/
theorem claim1_codec_selection (s : Server Val) (r : Request) (ct : String)
    (c : Codec Val)
    (hPost : r.httpMethod = "POST")
    (hNone : selectCodec s.codecs (stripAfterSemicolon r.contentType) = none) :
    selectCodec s.codecs (stripAfterSemicolon ct) = specSelect s.codecs ct ∧
    (Server.registerCodec s c ct).codecs = mapInsert s.codecs (lowerStr ct) c ∧
    serveHTTP s r =
      ⟨[], Written.plain 415
        ("rpc: unrecognized Content-Type: " ++ stripAfterSemicolon r.contentType), s⟩ := by
  refine ⟨?_, rfl, ?_⟩
  · rw [stripAfterSemicolon_eq_stripSpec]
    rfl
  · unfold serveHTTP
    rw [if_neg (fun hc => hc hPost)]
    simp only [hNone]

/-- Witness for C1 at a concrete content type and an unmatched request. -/
theorem claim1_witness :
    selectCodec exServer.codecs
        (stripAfterSemicolon "Application/JSON; charset=utf-8") =
      specSelect exServer.codecs "Application/JSON; charset=utf-8" ∧
    (Server.registerCodec exServer exCodec "Application/JSON; charset=utf-8").codecs =
      mapInsert exServer.codecs (lowerStr "Application/JSON; charset=utf-8") exCodec ∧
    serveHTTP exServer (postReq "bogus" "/jsonrpc/v2/Multiply") =
      ⟨[], Written.plain 415 "rpc: unrecognized Content-Type: bogus", exServer⟩ :=
  claim1_codec_selection exServer (postReq "bogus" "/jsonrpc/v2/Multiply")
    "Application/JSON; charset=utf-8" exCodec rfl rfl

/-- Counterexample for C2: a POST request whose final path segment names no
registered method but whose Content-Type matches no codec is answered 415,
not 404 — codec selection runs before path resolution — refuting the claim's
unconditional "every POST request with an unregistered final path segment
gets 404". -/
theorem claim2_counterexample :
    exceptIsOk (exServer.service.get (LastPart "/jsonrpc/v2/Nope")) = false ∧
    writtenStatus (serveHTTP exServer
        (postReq "bogus" "/jsonrpc/v2/Nope")).written = some 415 ∧
    writtenStatus (serveHTTP exServer
        (postReq "bogus" "/jsonrpc/v2/Nope")).written ≠ some 404 := by
  decide

/-- Claim C2 as amended: for every POST request that selects a codec and whose final
URL path segment does not name a registered method, the dispatcher responds
with status 404 and the lookup error as a plain-text body before any body
parsing: the trace is empty, so the codec's `NewRequest` is never called and
no envelope parsing or argument decoding occurs. -/
theorem claim2_path_404_before_parsing (s : Server Val) (r : Request)
    (c : Codec Val) (e : String)
    (hPost : r.httpMethod = "POST")
    (hSel : selectCodec s.codecs (stripAfterSemicolon r.contentType) = some c)
    (hPath : s.service.get (LastPart r.urlPath) = Except.error e) :
    serveHTTP s r = ⟨[], Written.plain 404 e, s⟩ := by
  unfold serveHTTP
  rw [if_neg (fun hc => hc hPost)]
  simp only [hSel, hPath]

/-- Witness for C2 at a concrete unregistered path segment. -/
theorem claim2_witness :
    serveHTTP exServer (postReq "application/json" "/jsonrpc/v2/Nope") =
      ⟨[], Written.plain 404 "rpc: cannot find method Nope", exServer⟩ :=
  claim2_path_404_before_parsing exServer
    (postReq "application/json" "/jsonrpc/v2/Nope") exCodec
    "rpc: cannot find method Nope" rfl rfl rfl

/-- Claim C3: every error arising after a codec has been selected and the path
lookup has succeeded — envelope parse failure, failure to obtain the method
name, an envelope method name absent from the registry, or argument decode
failure — is written via the selected codec's `WriteError` with status 400,
never via the generic plain-text writer. -/
theorem claim3_post_codec_errors (s : Server Val) (r : Request) (c : Codec Val)
    (m : MethodSpec Val)
    (hPost : r.httpMethod = "POST")
    (hSel : selectCodec s.codecs (stripAfterSemicolon r.contentType) = some c)
    (hPath : s.service.get (LastPart r.urlPath) = Except.ok m) :
    (∀ e, (c.newRequest r).error = some e →
      serveHTTP s r = ⟨[Ev.newRequest], Written.codecErr 400 e, s⟩) ∧
    (∀ e, (c.newRequest r).error = none →
      (c.newRequest r).methodName = Except.error e →
      serveHTTP s r = ⟨[Ev.newRequest], Written.codecErr 400 e, s⟩) ∧
    (∀ n e, (c.newRequest r).error = none →
      (c.newRequest r).methodName = Except.ok n →
      s.service.get n = Except.error e →
      serveHTTP s r = ⟨[Ev.newRequest], Written.codecErr 400 e, s⟩) ∧
    (∀ n spec e, (c.newRequest r).error = none →
      (c.newRequest r).methodName = Except.ok n →
      s.service.get n = Except.ok spec →
      (c.newRequest r).read spec.argsZero = Except.error e →
      serveHTTP s r = ⟨[Ev.newRequest, Ev.readRequest], Written.codecErr 400 e, s⟩) := by
  refine ⟨?_, ?_, ?_, ?_⟩
  · intro e hEnv
    unfold serveHTTP
    rw [if_neg (fun hc => hc hPost)]
    simp only [hSel, hPath, hEnv]
  · intro e hEnv hName
    unfold serveHTTP
    rw [if_neg (fun hc => hc hPost)]
    simp only [hSel, hPath, hEnv, hName]
  · intro n e hEnv hName hGet
    unfold serveHTTP
    rw [if_neg (fun hc => hc hPost)]
    simp only [hSel, hPath, hEnv, hName, hGet]
  · intro n spec e hEnv hName hGet hRead
    unfold serveHTTP
    rw [if_neg (fun hc => hc hPost)]
    simp only [hSel, hPath, hEnv, hName, hGet, hRead]

/-- Witness for C3: a concrete envelope parse failure is answered through the
codec's error writer with status 400. -/
theorem claim3_witness :
    serveHTTP exBadEnvServer (postReq "application/json" "/jsonrpc/v2/Multiply") =
      ⟨[Ev.newRequest], Written.codecErr 400 "rpc: parse error", exBadEnvServer⟩ :=
  (claim3_post_codec_errors exBadEnvServer
    (postReq "application/json" "/jsonrpc/v2/Multiply") exBadEnvCodec exMethod
    rfl rfl rfl).1 "rpc: parse error" rfl

/-- Claim C4: once a request reaches invocation, exactly one of two writes happens:
a non-nil method error is written via the codec's `WriteError` with status
400 and no successful reply body is ever written, while a nil error leads to
the reply value — computed from the freshly allocated `replyZero` — being
written via the codec's `WriteResponse`. -/
theorem claim4_invocation_outcome (s : Server Val) (r : Request)
    (c : Codec Val) (m : MethodSpec Val) (n : String) (spec : MethodSpec Val)
    (args : Val)
    (hPost : r.httpMethod = "POST")
    (hSel : selectCodec s.codecs (stripAfterSemicolon r.contentType) = some c)
    (hPath : s.service.get (LastPart r.urlPath) = Except.ok m)
    (hEnv : (c.newRequest r).error = none)
    (hName : (c.newRequest r).methodName = Except.ok n)
    (hGet : s.service.get n = Except.ok spec)
    (hRead : (c.newRequest r).read spec.argsZero = Except.ok args) :
    (∀ e, (spec.invoke r args spec.replyZero).2 = some e →
      serveHTTP s r =
        ⟨[Ev.newRequest, Ev.readRequest, Ev.invoke n], Written.codecErr 400 e, s⟩ ∧
      ∀ v, (serveHTTP s r).written ≠ Written.codecResp v) ∧
    ((spec.invoke r args spec.replyZero).2 = none →
      serveHTTP s r =
        ⟨[Ev.newRequest, Ev.readRequest, Ev.invoke n],
          Written.codecResp (spec.invoke r args spec.replyZero).1, s⟩) := by
  constructor
  · intro e hInv
    have heq : serveHTTP s r =
        ⟨[Ev.newRequest, Ev.readRequest, Ev.invoke n], Written.codecErr 400 e, s⟩ := by
      unfold serveHTTP
      rw [if_neg (fun hc => hc hPost)]
      simp only [hSel, hPath, hEnv, hName, hGet, hRead, hInv]
    refine ⟨heq, ?_⟩
    intro v
    rw [heq]
    simp
  · intro hInv
    unfold serveHTTP
    rw [if_neg (fun hc => hc hPost)]
    simp only [hSel, hPath, hEnv, hName, hGet, hRead, hInv]

/-- Witness for C4: a failing method writes the codec-encoded 400, and a
succeeding method writes its reply. -/
theorem claim4_witness :
    serveHTTP exFailServer (postReq "application/json" "/jsonrpc/v2/Fail") =
      ⟨[Ev.newRequest, Ev.readRequest, Ev.invoke "Fail"],
        Written.codecErr 400 "boom", exFailServer⟩ ∧
    serveHTTP exServer (postReq "application/json" "/jsonrpc/v2/Multiply") =
      ⟨[Ev.newRequest, Ev.readRequest, Ev.invoke "Multiply"],
        Written.codecResp 42, exServer⟩ :=
  ⟨((claim4_invocation_outcome exFailServer
      (postReq "application/json" "/jsonrpc/v2/Fail") exFailCodec exFailMethod
      "Fail" exFailMethod 0 rfl rfl rfl rfl rfl rfl rfl).1 "boom" rfl).1,
   (claim4_invocation_outcome exServer
      (postReq "application/json" "/jsonrpc/v2/Multiply") exCodec exMethod
      "Multiply" exMethod 0 rfl rfl rfl rfl rfl rfl rfl).2 rfl⟩

/-- Claim C5: in every dispatched request both resolution strategies run in
sequence: a failing path-segment lookup ends the request with a plain 404
regardless of what the codec envelope would have said, and on the full
success path the one invocation performed is of the envelope-resolved method
name, so a path segment naming a different registered method is looked up but
never invoked. -/
theorem claim5_dual_resolution (s : Server Val) (r : Request) (c : Codec Val)
    (m : MethodSpec Val) (n : String) (spec : MethodSpec Val) (args : Val)
    (hPost : r.httpMethod = "POST")
    (hSel : selectCodec s.codecs (stripAfterSemicolon r.contentType) = some c) :
    (∀ e, s.service.get (LastPart r.urlPath) = Except.error e →
      serveHTTP s r = ⟨[], Written.plain 404 e, s⟩) ∧
    (s.service.get (LastPart r.urlPath) = Except.ok m →
      (c.newRequest r).error = none →
      (c.newRequest r).methodName = Except.ok n →
      s.service.get n = Except.ok spec →
      (c.newRequest r).read spec.argsZero = Except.ok args →
      (serveHTTP s r).trace = [Ev.newRequest, Ev.readRequest, Ev.invoke n] ∧
      (n ≠ LastPart r.urlPath →
        Ev.invoke (LastPart r.urlPath) ∉ (serveHTTP s r).trace)) := by
  constructor
  · intro e hPath
    unfold serveHTTP
    rw [if_neg (fun hc => hc hPost)]
    simp only [hSel, hPath]
  · intro hPath hEnv hName hGet hRead
    have htrace : (serveHTTP s r).trace =
        [Ev.newRequest, Ev.readRequest, Ev.invoke n] := by
      unfold serveHTTP
      rw [if_neg (fun hc => hc hPost)]
      cases hInv : (spec.invoke r args spec.replyZero).2 with
      | none => simp only [hSel, hPath, hEnv, hName, hGet, hRead, hInv]
      | some e => simp only [hSel, hPath, hEnv, hName, hGet, hRead, hInv]
    refine ⟨htrace, ?_⟩
    intro hne
    rw [htrace]
    intro hmem
    simp only [List.mem_cons, List.not_mem_nil, or_false] at hmem
    rcases hmem with h1 | h1 | h1 <;> first
      | exact Ev.noConfusion h1
      | exact hne (Ev.invoke.inj h1).symm

/-- Witness for C5: the path names the registered `Fail` while the envelope
names `Multiply`; `Multiply` is the one method invoked and `Fail` never
is. -/
theorem claim5_witness :
    (serveHTTP exServer (postReq "application/json" "/jsonrpc/v2/Fail")).trace =
      [Ev.newRequest, Ev.readRequest, Ev.invoke "Multiply"] ∧
    Ev.invoke "Fail" ∉
      (serveHTTP exServer (postReq "application/json" "/jsonrpc/v2/Fail")).trace :=
  have h := (claim5_dual_resolution exServer
    (postReq "application/json" "/jsonrpc/v2/Fail") exCodec exFailMethod
    "Multiply" exMethod 0 rfl rfl).2 rfl rfl rfl rfl rfl
  ⟨h.1, h.2 (by decide)⟩

/-- Claim C6: construction is atomic — a receiver with zero structurally eligible
methods makes `NewServer` return the registration error and no server value,
so no server with an empty (or partially built) registry is ever exposed; a
successfully constructed server carries exactly the eligible methods and a
non-empty registry, and the dispatch path returns the registry it was given,
never mutating it. -/
theorem claim6_registration_atomic (receiver : List (CandidateMethod Val))
    (s : Server Val) (r : Request) :
    (receiver.filter suitableMethod = [] →
      NewServer receiver = Except.error "rpc: no suitable methods on receiver") ∧
    (NewServer receiver = Except.ok s →
      s.service.methods =
        (receiver.filter suitableMethod).map (fun m => (m.name, m.impl)) ∧
      s.service.methods ≠ []) ∧
    (serveHTTP s r).server = s := by
  refine ⟨?_, ?_, serveHTTP_server_eq s r⟩
  · intro hf
    unfold NewServer NewRpcService
    rw [hf]
    rfl
  · intro hOk
    unfold NewServer at hOk
    cases hns : NewRpcService receiver with
    | error e => rw [hns] at hOk; exact Except.noConfusion hOk
    | ok svc =>
      rw [hns] at hOk
      cases Except.ok.inj hOk
      unfold NewRpcService at hns
      by_cases hf : (receiver.filter suitableMethod).isEmpty
      · rw [if_pos hf] at hns
        exact Except.noConfusion hns
      · rw [if_neg hf] at hns
        cases Except.ok.inj hns
        refine ⟨rfl, ?_⟩
        intro hnil
        apply hf
        rw [List.isEmpty_iff]
        cases hx : receiver.filter suitableMethod with
        | nil => rfl
        | cons a l => rw [hx] at hnil; exact List.noConfusion hnil

/-- Witness for C6: a receiver whose only method fails the rules cannot be
built; a receiver with one eligible method builds a server holding exactly
that method. -/
theorem claim6_witness :
    NewServer [exBadCandidate] =
      Except.error "rpc: no suitable methods on receiver" ∧
    ({ codecs := [], service := { methods := [("Multiply", exMethod)] } } :
        Server Int).service.methods =
      ([exGoodCandidate].filter suitableMethod).map (fun m => (m.name, m.impl)) ∧
    (serveHTTP exServer (postReq "application/json" "/jsonrpc/v2/Multiply")).server =
      exServer :=
  ⟨(claim6_registration_atomic [exBadCandidate] exServer
      (postReq "application/json" "/jsonrpc/v2/Multiply")).1 rfl,
   ((claim6_registration_atomic [exGoodCandidate]
      { codecs := [], service := { methods := [("Multiply", exMethod)] } }
      (postReq "application/json" "/jsonrpc/v2/Multiply")).2.1 rfl).1,
   (claim6_registration_atomic [exBadCandidate] exServer
      (postReq "application/json" "/jsonrpc/v2/Multiply")).2.2⟩

/-- Counterexample for C7: Go's 64-bit `int` multiplication wraps, so `Multiply`
does not compute the exact product for every `Args` value: at
`A = 2^62, B = 4` the reply is 0, not `2^64`. -/
theorem claim7_counterexample :
    Arith.Multiply (postReq "application/json" "/jsonrpc/v2/Multiply")
        ⟨4611686018427387904, 4⟩ 0 = (0, none) ∧
    (0 : Int) ≠ 4611686018427387904 * 4 := by
  constructor
  · unfold Arith.Multiply wrap64
    norm_num
  · norm_num

/-- Claim C7 as amended: on 64-bit-representable inputs the arithmetic service is
exact wherever its result is representable: `Multiply` replies `A * B` and
returns nil whenever the product is representable; `Divide` with `B ≠ 0` sets
the truncated quotient and remainder and returns nil except at the lone
overflowing input `A = -2^63, B = -1`; `Divide` with `B = 0` returns the
error "divide by zero" leaving the quotient value untouched. -/
theorem claim7_arith_exact (r : Request) (args : Args) (reply : Int)
    (quo : Quotient) (hA : inInt64 args.A) (hB : inInt64 args.B) :
    (inInt64 (args.A * args.B) →
      Arith.Multiply r args reply = (args.A * args.B, none)) ∧
    (args.B ≠ 0 → ¬(args.A = -(2 ^ 63) ∧ args.B = -1) →
      Arith.Divide r args quo =
        ({ Quo := Int.tdiv args.A args.B, Rem := Int.tmod args.A args.B }, none)) ∧
    (args.B = 0 → Arith.Divide r args quo = (quo, some "divide by zero")) := by
  refine ⟨?_, ?_, ?_⟩
  · intro hprod
    unfold Arith.Multiply
    rw [wrap64_eq_of_inInt64 _ hprod]
  · intro hB0 hmin
    unfold Arith.Divide
    rw [if_neg hB0,
      wrap64_eq_of_inInt64 _ (tdiv_inInt64 args.A args.B hA hB hB0 hmin),
      wrap64_eq_of_inInt64 _ (tmod_inInt64 args.A args.B hA hB hB0)]
  · intro hB0
    unfold Arith.Divide
    rw [if_pos hB0]

/-- Witness for C7 at the spec's round-trip examples: 6 times 7 is 42, 7
divided by 2 is quotient 3 remainder 1, and 1 divided by 0 is the divide-by-
zero error with the quotient left at zero. -/
theorem claim7_witness :
    Arith.Multiply (postReq "application/json" "/jsonrpc/v2/Multiply")
      ⟨6, 7⟩ 0 = (42, none) ∧
    Arith.Divide (postReq "application/json" "/jsonrpc/v2/Divide")
      ⟨7, 2⟩ ⟨0, 0⟩ = ({ Quo := 3, Rem := 1 }, none) ∧
    Arith.Divide (postReq "application/json" "/jsonrpc/v2/Divide")
      ⟨1, 0⟩ ⟨0, 0⟩ = (⟨0, 0⟩, some "divide by zero") :=
  ⟨(claim7_arith_exact (postReq "application/json" "/jsonrpc/v2/Multiply")
      ⟨6, 7⟩ 0 ⟨0, 0⟩ (by decide) (by decide)).1 (by decide),
   (claim7_arith_exact (postReq "application/json" "/jsonrpc/v2/Divide")
      ⟨7, 2⟩ 0 ⟨0, 0⟩ (by decide) (by decide)).2.1 (by decide) (by decide),
   (claim7_arith_exact (postReq "application/json" "/jsonrpc/v2/Divide")
      ⟨1, 0⟩ 0 ⟨0, 0⟩ (by decide) (by decide)).2.2 rfl⟩

end Rpcserver
